import Mathlib

/-!
Verification of the Nevira voice-assistant client and token server.

The definitions below are a shallow embedding of the repository's code:

* `src/nevira-ui/src/App.jsx` — the room session controller, its room event
  handlers (`setupRoomListeners`), the data-channel message handlers
  (`handleDataReceived`, `triggerTool`, `sendMessage`), `connectToRoom`,
  `disconnectFromRoom`, and the microphone level meter `tick`.
* `src/token-server/server.js` — the `POST /token` route.

Byte payloads are modelled at the level of their UTF-8 decoding
(`TextEncoder`/`TextDecoder` are mutually inverse on well-formed text, so the
wire format is represented by the decoded `String`).  `JSON.parse` and the
`JSON.stringify` calls of the source are modelled by an executable JSON
parser/serializer over the value type `Js` below, following the ECMAScript
JSON grammar (whitespace, literals, numbers without leading zeros, strings
with escapes, arrays, objects; duplicate object keys resolve to the last
occurrence, as in JavaScript).
-/

namespace Nevira

/-- A JavaScript value as produced by `JSON.parse`. -/
inductive Js where
  | null
  | bool (b : Bool)
  | num (q : ℚ)
  | str (s : String)
  | arr (items : List Js)
  | obj (fields : List (String × Js))
deriving Repr

/-- JavaScript truthiness of a `Js` value (`undefined` is handled by callers
as `Option.none`). -/
def jsTruthy : Js → Bool
  | .null => false
  | .bool b => b
  | .num q => !(q == 0)
  | .str s => !(s == "")
  | .arr _ => true
  | .obj _ => true

/-- Property lookup on a parsed JSON object: with duplicate keys,
`JSON.parse` keeps the later occurrence, so the last binding wins. -/
def lookupLast (fields : List (String × Js)) (k : String) : Option Js :=
  (fields.reverse.find? (fun p => p.1 == k)).map (fun p => p.2)

/-- JavaScript property access `v[k]` on a parsed JSON value: `.error` models
the `TypeError` thrown when the base is `null`; on other non-objects the
result is `undefined` (`none`). -/
def jsGetProp (v : Js) (k : String) : Except Unit (Option Js) :=
  match v with
  | .null => .error ()
  | .obj fields => .ok (lookupLast fields k)
  | _ => .ok none

/-- Non-throwing property access: the value of `v[k]` when the base is not
`null` (`undefined` is `none`). -/
def jsProp (v : Js) (k : String) : Option Js :=
  match v with
  | .obj fields => lookupLast fields k
  | _ => none

/-- The ECMAScript white-space set used by `String.prototype.trim`:
WhiteSpace (TAB, VT, FF, SP, NBSP, ZWNBSP and the Unicode Zs category)
together with the line terminators LF, CR, LS, PS. -/
def isJsWhitespace (c : Char) : Bool :=
  let n := c.toNat
  n == 9 || n == 10 || n == 11 || n == 12 || n == 13 || n == 32 ||
  n == 160 || n == 5760 || (8192 ≤ n && n ≤ 8202) || n == 8232 ||
  n == 8233 || n == 8239 || n == 8287 || n == 12288 || n == 65279

/-- `String.prototype.trim`: strip leading and trailing ECMAScript
white space. -/
def jsTrim (s : String) : String :=
  String.mk (((s.data.dropWhile isJsWhitespace).reverse.dropWhile isJsWhitespace).reverse)

/-! ### JSON lexing helpers -/

/-- JSON insignificant whitespace (ECMA-404): space, tab, LF, CR. -/
def isJsonWs (c : Char) : Bool := c == ' ' || c == '\t' || c == '\n' || c == '\r'

def skipWs (cs : List Char) : List Char := cs.dropWhile isJsonWs

def isDigitCh (c : Char) : Bool := '0' ≤ c && c ≤ '9'

/-- Value of a hexadecimal digit character, if it is one. -/
def hexDigitVal (c : Char) : Option Nat :=
  let n := c.toNat
  if 48 ≤ n ∧ n ≤ 57 then some (n - 48)
  else if 97 ≤ n ∧ n ≤ 102 then some (n - 87)
  else if 65 ≤ n ∧ n ≤ 70 then some (n - 55)
  else none

/-- Meaning of a single-character string escape `\c`. -/
def namedEscape : Char → Option Char
  | 'n' => some '\n'
  | 't' => some '\t'
  | 'r' => some '\x0d'
  | 'b' => some '\x08'
  | 'f' => some '\x0c'
  | '/' => some '/'
  | '\\' => some '\\'
  | '"' => some '"'
  | _ => none

/-- Parse the body of a JSON string after the opening quote, returning the
decoded characters and the input after the closing quote.  Raw control
characters are rejected, as in `JSON.parse`. -/
def strBody : List Char → Option (List Char × List Char)
  | [] => none
  | c :: rest =>
    if c = '"' then some ([], rest)
    else if c = '\\' then
      match rest with
      | 'u' :: a :: b :: x :: y :: rest2 =>
        match hexDigitVal a, hexDigitVal b, hexDigitVal x, hexDigitVal y with
        | some va, some vb, some vx, some vy =>
          (strBody rest2).map
            (fun p => (Char.ofNat (((va * 16 + vb) * 16 + vx) * 16 + vy) :: p.1, p.2))
        | _, _, _, _ => none
      | e :: rest2 =>
        match namedEscape e with
        | some ch => (strBody rest2).map (fun p => (ch :: p.1, p.2))
        | none => none
      | [] => none
    else if c.toNat < 32 then none
    else (strBody rest).map (fun p => (c :: p.1, p.2))

/-- Numeric value of a run of decimal digit characters. -/
def digitsVal (ds : List Char) : Nat :=
  ds.foldl (fun acc c => acc * 10 + (c.toNat - 48)) 0

/-- Split a leading run of decimal digits off the input. -/
def digitSpan : List Char → List Char × List Char
  | [] => ([], [])
  | c :: rest =>
    match isDigitCh c, digitSpan rest with
    | true, (ds, r) => (c :: ds, r)
    | false, _ => ([], c :: rest)

/-- Consume the optional leading minus sign of a number token. -/
def stripMinus : List Char → Bool × List Char
  | '-' :: r => (true, r)
  | cs => (false, cs)

/-- Consume the optional fraction digits of a number token (the input
after the integer part). -/
def fracPart : List Char → List Char × List Char
  | '.' :: r => digitSpan r
  | cs => ([], cs)

/-- Consume the optional exponent marker and its sign. -/
def expMark : List Char → Bool × List Char
  | 'e' :: '+' :: r => (false, r)
  | 'e' :: '-' :: r => (true, r)
  | 'e' :: r => (false, r)
  | 'E' :: '+' :: r => (false, r)
  | 'E' :: '-' :: r => (true, r)
  | cs => (false, cs)

/-- Parse a JSON number (sign, integer part without leading zeros, optional
fraction, optional exponent), returning its exact rational value. -/
def numToken (cs : List Char) : Option (ℚ × List Char) :=
  let (neg, cs1) := stripMinus cs
  let (ids, cs2) := digitSpan cs1
  if ids = [] then none
  else if ids.head? = some '0' ∧ ids.length ≠ 1 then none
  else
    let (fds, cs3) := fracPart cs2
    if cs2 ≠ cs3 ∧ fds = [] then none
    else
      let (esgn, cs4) := expMark cs3
      if cs3 ≠ cs4 then
        let (eds, cs5) := digitSpan cs4
        if eds = [] then none
        else
          let base : ℚ := (digitsVal ids : ℚ) + (digitsVal fds : ℚ) / (10 : ℚ) ^ fds.length
          let scaled : ℚ :=
            if esgn then base / (10 : ℚ) ^ digitsVal eds else base * (10 : ℚ) ^ digitsVal eds
          some (if neg then -scaled else scaled, cs5)
      else
        let base : ℚ := (digitsVal ids : ℚ) + (digitsVal fds : ℚ) / (10 : ℚ) ^ fds.length
        some (if neg then -base else base, cs3)

/-! ### The JSON parser (recursion on a fuel counter) -/

mutual

/-- Parse one JSON value.  `fuel` only bounds the recursion; any fuel at least
the input length plus a constant is enough for every well-formed document. -/
def jsonVal : Nat → List Char → Option (Js × List Char)
  | 0, _ => none
  | fuel + 1, cs =>
    match cs with
    | 'n' :: 'u' :: 'l' :: 'l' :: rest => some (.null, rest)
    | 't' :: 'r' :: 'u' :: 'e' :: rest => some (.bool true, rest)
    | 'f' :: 'a' :: 'l' :: 's' :: 'e' :: rest => some (.bool false, rest)
    | '"' :: rest =>
      match strBody rest with
      | some (out, rem) => some (.str (String.mk out), rem)
      | none => none
    | '[' :: rest =>
      match skipWs rest with
      | ']' :: rem => some (.arr [], rem)
      | body =>
        match jsonItems fuel body with
        | some (items, rem) => some (.arr items, rem)
        | none => none
    | '\x7b' :: rest =>
      match skipWs rest with
      | '\x7d' :: rem => some (.obj [], rem)
      | body =>
        match jsonFields fuel body with
        | some (fields, rem) => some (.obj fields, rem)
        | none => none
    | _ =>
      match numToken cs with
      | some (q, rem) => some (.num q, rem)
      | none => none

/-- Parse one-or-more comma-separated array items up to the closing bracket. -/
def jsonItems : Nat → List Char → Option (List Js × List Char)
  | 0, _ => none
  | fuel + 1, cs =>
    match jsonVal fuel cs with
    | some (v, rest) =>
      match skipWs rest with
      | ',' :: rest2 =>
        match jsonItems fuel (skipWs rest2) with
        | some (items, rem) => some (v :: items, rem)
        | none => none
      | ']' :: rem => some ([v], rem)
      | _ => none
    | none => none

/-- Parse one-or-more comma-separated object members up to the closing brace. -/
def jsonFields : Nat → List Char → Option (List (String × Js) × List Char)
  | 0, _ => none
  | fuel + 1, cs =>
    match cs with
    | '"' :: rest =>
      match strBody rest with
      | some (key, rest1) =>
        match skipWs rest1 with
        | ':' :: rest2 =>
          match jsonVal fuel (skipWs rest2) with
          | some (v, rest3) =>
            match skipWs rest3 with
            | ',' :: rest4 =>
              match jsonFields fuel (skipWs rest4) with
              | some (fields, rem) => some ((String.mk key, v) :: fields, rem)
              | none => none
            | '\x7d' :: rem => some ([(String.mk key, v)], rem)
            | _ => none
          | none => none
        | _ => none
      | none => none
    | _ => none

end

/-- The model of `JSON.parse` on the UTF-8 decoding of a payload: `none` is a
thrown `SyntaxError`.  Trailing non-whitespace is rejected. -/
def jsonParse (s : String) : Option Js :=
  match jsonVal (s.data.length + 5) (skipWs s.data) with
  | some (v, rest) => if skipWs rest = [] then some v else none
  | none => none

/-! ### The serializer side: `JSON.stringify` for the wire payloads

`triggerTool`, `sendMessage` and `handleEmailSubmit` all stringify the flat
object `type/text/ts` whose values are two strings and an integer timestamp,
so the serializer is specialised to that shape. -/

/-- Lowercase hexadecimal digit character for `k < 16`. -/
def hexChar (k : Nat) : Char :=
  if k < 10 then Char.ofNat (48 + k) else Char.ofNat (97 + (k - 10))

/-- How `JSON.stringify` renders one character inside a string literal: the
two-character escapes for quote, backslash and the five named control
characters, `\u00XX` for the remaining control characters, and the character
itself otherwise. -/
def stringifyChar (c : Char) : List Char :=
  if c = '"' then ['\\', '"']
  else if c = '\\' then ['\\', '\\']
  else if c = '\x08' then ['\\', 'b']
  else if c = '\t' then ['\\', 't']
  else if c = '\n' then ['\\', 'n']
  else if c = '\x0c' then ['\\', 'f']
  else if c = '\r' then ['\\', 'r']
  else if c.toNat < 32 then ['\\', 'u', '0', '0', hexChar (c.toNat / 16), hexChar (c.toNat % 16)]
  else [c]

/-- The escaped body of a stringified string literal. -/
def stringifyBody (s : String) : List Char := s.data.flatMap stringifyChar

/-- Decimal digit characters of a natural number, most significant first. -/
def natDecimal (n : Nat) : List Char :=
  if h : n < 10 then [Char.ofNat (48 + n)]
  else natDecimal (n / 10) ++ [Char.ofNat (48 + n % 10)]
termination_by n
decreasing_by exact Nat.div_lt_self (by omega) (by omega)

/-- `JSON.stringify` of the payload object built in `triggerTool` /
`sendMessage`: literally
`JSON.stringify(\x7b type: 'user_command', text, ts \x7d)`. -/
def encodeUserCommand (text : String) (ts : Nat) : String :=
  String.mk
    ("\x7b\"type\":\"user_command\",\"text\":\"".data
      ++ stringifyBody text
      ++ "\",\"ts\":".data
      ++ natDecimal ts
      ++ ['\x7d'])

/-! ### Data model of the App component state

Only the state the verified handlers touch is modelled; each field is one of
the `useState` hooks (or refs) of `App.jsx`. -/

/-- One entry of the bounded event log: `ts`/`msg` as in the `setLogs`
calls. -/
structure LogEntry where
  ts : Nat
  msg : String
deriving Repr, DecidableEq

/-- Chat message sender: the code stores the strings `user` /
`assistant`. -/
inductive Sender where
  | user
  | assistant
deriving Repr, DecidableEq

/-- One chat message as appended to `messages`.  `text` is the JavaScript
value assigned to the `text` field (possibly `undefined`, i.e. `none`);
`images` is the value assigned to `images`. -/
structure ChatEntry where
  id : Nat
  sender : Sender
  text : Option Js
  images : Js
  timestamp : Nat
deriving Repr

/-- A remote participant as rebuilt by `updateParticipants`. -/
structure Participant where
  identity : String
  isAgent : Bool
deriving Repr, DecidableEq

/-- One tool card of the `tools` array. -/
structure Tool where
  key : String
  label : String
  desc : String
  prompt : String
deriving Repr, DecidableEq

/-- The `tools` array of `App.jsx`. -/
def tools : List Tool :=
  [⟨"get_weather", "Weather", "Get weather for a city", "What is the weather in London?"⟩,
   ⟨"search_web", "Web Search", "Search the internet", "Search the web for latest AI news"⟩,
   ⟨"send_email", "Send Email", "Compose and send an email",
     "Send an email to hr saying I will be late by 15 minutes"⟩,
   ⟨"open_application", "Open App", "Open common applications", "Open calculator"⟩,
   ⟨"close_application", "Close App", "Close an application", "Close calculator"⟩,
   ⟨"open_website", "Open Website", "Open popular websites", "Open YouTube"⟩,
   ⟨"search_google", "Google Search", "Search in browser", "Search Google for LiveKit agents"⟩,
   ⟨"get_system_status", "System Status", "CPU, memory, disk, battery",
     "What is my system status?"⟩,
   ⟨"get_time_and_date", "Time & Date", "Current time and date", "What is the time and date?"⟩,
   ⟨"take_screenshot", "Screenshot", "Capture your screen", "Take a screenshot"⟩]

/-- The controller state: the `useState` hooks and refs of `App` that the
verified operations read or write.  `room` is the `room` state (`some` when a
`Room` instance is held), `levelRaf` is whether the meter's
`requestAnimationFrame` loop is scheduled (`levelRafRef.current`). -/
structure AppState where
  room : Option Unit
  connected : Bool
  connecting : Bool
  participants : List Participant
  logs : List LogEntry
  messages : List ChatEntry
  inputMessage : String
  showEmailPopup : Bool
  error : Option String
  levelRaf : Bool
deriving Repr

/-- The initial hook values. -/
def initState : AppState :=
  ⟨none, false, false, [], [], [], "", false, none, false⟩

/-! ### Externally visible effects

Calls the handlers make into the token server or the LiveKit room are
recorded as actions, in call order. -/

/-- An outward call made by the controller. -/
inductive Action where
  | tokenFetch (identity roomName : String)
  | roomConnect (token : String)
  | enableMic
  | publishData (payload : String) (reliable : Bool)
  | roomDisconnect
deriving Repr, DecidableEq

/-- The log-push pattern used by every `setLogs` call:
`[entry, ...l].slice(0, 50)` — prepend the new entry, keep the first 50. -/
def pushLog (e : LogEntry) (l : List LogEntry) : List LogEntry :=
  (e :: l).take 50

/-- The role heuristic of `updateParticipants` / `TrackSubscribed`:
`identity.includes('agent') || identity.includes('nevira')`. -/
def identityIsAgent (id : String) : Bool :=
  id.containsSubstr "agent" || id.containsSubstr "nevira"

/-- `updateParticipants`: rebuild the participant list from the room's
current remote membership view. -/
def updateParticipants (remotes : List String) : List Participant :=
  remotes.map (fun id => ⟨id, identityIsAgent id⟩)

/-- The `RoomEvent.ParticipantConnected` handler: push a `+ identity` log
entry and recompute the participant list. -/
def onParticipantConnected (now : Nat) (identity : String) (remotes : List String)
    (st : AppState) : AppState :=
  { st with
    logs := pushLog ⟨now, "+ " ++ identity⟩ st.logs
    participants := updateParticipants remotes }

/-- The `RoomEvent.ParticipantDisconnected` handler: push a `- identity` log
entry and recompute the participant list. -/
def onParticipantDisconnected (now : Nat) (identity : String) (remotes : List String)
    (st : AppState) : AppState :=
  { st with
    logs := pushLog ⟨now, "- " ++ identity⟩ st.logs
    participants := updateParticipants remotes }

/-- The `RoomEvent.Disconnected` handler (remote-initiated disconnect): push
a log entry, clear `connected` and `room`, cancel the meter loop.  Note it
does not touch `participants`. -/
def onRoomDisconnected (now : Nat) (st : AppState) : AppState :=
  { st with
    logs := pushLog ⟨now, "Disconnected from room"⟩ st.logs
    connected := false
    room := none
    levelRaf := false }

/-- `disconnectFromRoom`: when a room is held, disconnect it, clear `room`,
`connected` and `participants`, and cancel the meter loop; otherwise do
nothing. -/
def disconnectFromRoom (st : AppState) : AppState × List Action :=
  match st.room with
  | none => (st, [])
  | some _ =>
    ({ st with room := none, connected := false, participants := [], levelRaf := false },
     [.roomDisconnect])

/-! ### The `RoomEvent.DataReceived` handler -/

/-- The fallback `ChatEntry` built in the catch branch of the handler. -/
def fallbackEntry (now : Nat) (text : String) : ChatEntry :=
  ⟨now, .assistant, some (.str text), .arr [], now⟩

/-- The `ChatEntry` built for an `assistant_message`: `text` is
`data.message || data.text`, `images` is `data.images || []`. -/
def assistantEntry (now : Nat) (msg txt imgs : Option Js) : ChatEntry :=
  ⟨now, .assistant,
   (match msg with
    | some v => if jsTruthy v then some v else txt
    | none => txt),
   (match imgs with
    | some v => if jsTruthy v then v else .arr []
    | none => .arr []),
   now⟩

/-- The body of the `try` block of the `DataReceived` handler: parse the
decoded payload, read `data.type` (which throws on `null`), and dispatch.
`.error` means an exception escaped to the `catch` branch. -/
def dataReceivedTry (now : Nat) (text : String) (st : AppState) :
    Except Unit AppState :=
  match jsonParse text with
  | none => .error ()
  | some data =>
    match jsGetProp data "type" with
    | .error e => .error e
    | .ok ty =>
      match ty with
      | some (.str "email_popup_trigger") =>
        .ok { st with
          showEmailPopup := true
          logs := pushLog ⟨now, "Email popup opened via voice command"⟩ st.logs }
      | some (.str "assistant_message") =>
        match jsGetProp data "message", jsGetProp data "text", jsGetProp data "images" with
        | .ok msg, .ok txt, .ok imgs =>
          .ok { st with messages := st.messages ++ [assistantEntry now msg txt imgs] }
        | _, _, _ => .error ()
      | _ => .ok st

/-- The whole `DataReceived` handler: run the `try` block; on an exception,
decode the payload as plain text and append it as an assistant chat entry
when it is nonempty and not all whitespace. -/
def handleDataReceived (now : Nat) (text : String) (st : AppState) : AppState :=
  match dataReceivedTry now text st with
  | .ok st1 => st1
  | .error _ =>
    if text ≠ "" ∧ jsTrim text ≠ "" then
      { st with messages := st.messages ++ [fallbackEntry now text] }
    else
      st

/-! ### Sending: `triggerTool` and `sendMessage` -/

/-- `triggerTool`: no-op unless connected with a room; the email tool only
opens the compose popup; every other tool publishes its canned prompt as a
`user_command` with the reliable flag set, then logs (or, had the publish
thrown, records the error message).  `pubOk` is whether the awaited
`publishData` call succeeded. -/
def triggerTool (now : Nat) (pubOk : Bool) (t : Tool) (st : AppState) :
    AppState × List Action :=
  if !st.connected || st.room.isNone then (st, [])
  else if t.key = "send_email" then
    ({ st with showEmailPopup := true }, [])
  else
    let sent := Action.publishData (encodeUserCommand t.prompt now) true
    if pubOk then
      ({ st with logs := pushLog ⟨now, "Triggered tool: " ++ t.label⟩ st.logs }, [sent])
    else
      ({ st with error := some "Failed to send command to assistant. Please speak the request." },
       [sent])

/-- `sendMessage`: no-op when the input is blank or not connected; otherwise
append the user's chat entry, clear the input box, and publish the typed text
as a `user_command` with the reliable flag set. -/
def sendMessage (now : Nat) (pubOk : Bool) (st : AppState) : AppState × List Action :=
  if jsTrim st.inputMessage = "" || !st.connected || st.room.isNone then (st, [])
  else
    let userEntry : ChatEntry := ⟨now, .user, some (.str st.inputMessage), .arr [], now⟩
    let st1 := { st with
      messages := st.messages ++ [userEntry]
      inputMessage := "" }
    let sent := Action.publishData (encodeUserCommand st.inputMessage now) true
    if pubOk then (st1, [sent])
    else ({ st1 with error := some "Failed to send message. Please speak the request." }, [sent])

/-! ### `connectToRoom` and the token server -/

/-- The token server's `POST /token` request body. -/
structure TokenReq where
  identity : Option String
  roomName : Option String
deriving Repr, DecidableEq

/-- The token server's response to `POST /token`. -/
inductive TokenResp where
  | ok (token roomName : String)
  | badRequest (error : String)
  | forbidden (error : String)
deriving Repr, DecidableEq

/-- The `POST /token` route of `server.js`: reject a missing (or empty,
hence falsy) identity with 400; default the room name; read the room's
current membership, treating a failed lookup as an empty room; reject at or
above the participant cap with 403; otherwise mint a token.  `roomLookup` is
the `roomService.getRoom` outcome (`none` when it threw) and `mint` the
`AccessToken`/`toJwt` pipeline. -/
def postToken (req : TokenReq) (maxParticipants : Nat)
    (roomLookup : Option (List String)) (mint : String → String → String) : TokenResp :=
  match req.identity with
  | none => .badRequest "identity is required"
  | some id =>
    if id = "" then .badRequest "identity is required"
    else
      let room := match req.roomName with
        | some r => if r = "" then "nevira-room" else r
        | none => "nevira-room"
      let participants := roomLookup.getD []
      if participants.length ≥ maxParticipants then
        .forbidden "Room is full. Please try again later."
      else
        .ok (mint id room) room

/-- `getToken` in `App.jsx`: a non-2xx response throws
`Token request failed: statusText`; a 200 response yields `data.token`. -/
def getToken (resp : TokenResp) : Except String String :=
  match resp with
  | .ok token _ => .ok token
  | .badRequest _ => .error "Token request failed: Bad Request"
  | .forbidden _ => .error "Token request failed: Forbidden"

/-- `connectToRoom`: set `connecting` and clear the error; fetch a token for
a fresh identity; on a token failure the caught error message is surfaced
and nothing else happens.  With a token, a `Room` is created, listeners are
registered, and the `connect`/microphone/audio-context sequence runs
(`connectRes`); on its success the room is stored, the meter loop starts and
the state becomes connected; on its failure the error is surfaced.  The
`finally` branch always clears `connecting`.  Note there is no
connection-state guard anywhere. -/
def connectToRoom (identity : String) (tokenRes : Except String String)
    (connectRes : Except String Unit) (st : AppState) : AppState × List Action :=
  let st0 := { st with connecting := true, error := none }
  match tokenRes with
  | .error msg =>
    ({ st0 with error := some msg, connecting := false },
     [.tokenFetch identity "nevira-room"])
  | .ok token =>
    match connectRes with
    | .error msg =>
      ({ st0 with error := some msg, connecting := false },
       [.tokenFetch identity "nevira-room", .roomConnect token])
    | .ok _ =>
      ({ st0 with
          room := some ()
          connected := true
          levelRaf := true
          connecting := false },
       [.tokenFetch identity "nevira-room", .roomConnect token, .enableMic])

/-! ### The microphone level meter -/

/-- One `tick` of the analyser loop in `setupMicLevelAnalyser`: the byte
samples of `getByteTimeDomainData` are recentred to `(d - 128) / 128`, their
root-mean-square is scaled by the empirical gain 220, rounded
(`Math.round`), and clamped into `[0, 100]`
(`Math.min(100, Math.max(0, ...))`).  Arithmetic is modelled over the exact
reals; `round` is `Math.round`'s half-up rounding. -/
noncomputable def micTick (samples : List ℕ) : ℤ :=
  let sqsum : ℝ :=
    (samples.map (fun (d : ℕ) => (((d : ℝ) - 128) / 128) * (((d : ℝ) - 128) / 128))).sum
  let rms : ℝ := Real.sqrt (sqsum / samples.length)
  min 100 (max 0 (round (rms * 220)))

/-- A connected state with one remote participant, used to compare the
remote-disconnect handler with an explicit disconnect. -/
def sampleConnected : AppState :=
  { initState with
    room := some ()
    connected := true
    participants := [⟨"nevira-agent", true⟩]
    levelRaf := true }

/-!
## Claims

Each claim of the specification review is settled by one theorem below
(plus a witness when the theorem has hypotheses, and a counterexample when
the claim as stated fails on the code).
-/

/-- **C4** — every `setLogs` call pushes through the bounded-ring pattern
`pushLog`: the log never exceeds 50 entries, the pushed entry is newest
(at the head, the list being ordered newest-first), and a push onto a full
ring of 50 evicts exactly the oldest (last) entry.  The
participant-connected and participant-disconnected handlers write their
logs through exactly this pattern. -/
theorem log_ring_bounded_fifo (e : LogEntry) (l : List LogEntry) (_h : l.length ≤ 50) :
    (pushLog e l).length ≤ 50 ∧
    (pushLog e l).head? = some e ∧
    (l.length = 50 → pushLog e l = e :: l.dropLast) ∧
    (∀ now id remotes st, (onParticipantConnected now id remotes st).logs
        = pushLog ⟨now, "+ " ++ id⟩ st.logs) ∧
    (∀ now id remotes st, (onParticipantDisconnected now id remotes st).logs
        = pushLog ⟨now, "- " ++ id⟩ st.logs) := by
  refine ⟨?_, ?_, ?_, fun _ _ _ _ => rfl, fun _ _ _ _ => rfl⟩
  · simp [pushLog]
  · simp [pushLog]
  · intro h50
    simp [pushLog, List.dropLast_eq_take, h50]

/-- Witness for `log_ring_bounded_fifo` at a concrete full ring. -/
theorem log_ring_bounded_fifo_witness :
    (pushLog ⟨9, "x"⟩ (List.replicate 50 ⟨0, "old"⟩)).length ≤ 50 ∧
    (pushLog ⟨9, "x"⟩ (List.replicate 50 ⟨0, "old"⟩)).head? = some ⟨9, "x"⟩ ∧
    ((List.replicate 50 (⟨0, "old"⟩ : LogEntry)).length = 50 →
      pushLog ⟨9, "x"⟩ (List.replicate 50 ⟨0, "old"⟩)
        = ⟨9, "x"⟩ :: (List.replicate 50 (⟨0, "old"⟩ : LogEntry)).dropLast) := by
  have h := log_ring_bounded_fifo ⟨9, "x"⟩ (List.replicate 50 ⟨0, "old"⟩) (by simp)
  exact ⟨h.1, h.2.1, h.2.2.1⟩

/-- **C9** — triggering the email tool while connected only opens the
compose popup: the resulting state differs from the input state in
`showEmailPopup` alone, and no action (in particular no data publish) is
emitted. -/
theorem triggerTool_email_opens_popup_only (now : Nat) (pubOk : Bool) (t : Tool)
    (st : AppState) (hc : st.connected = true) (hr : st.room = some ())
    (hk : t.key = "send_email") :
    triggerTool now pubOk t st = ({ st with showEmailPopup := true }, []) := by
  simp [triggerTool, hc, hr, hk]

/-- Witness for `triggerTool_email_opens_popup_only`: the `send_email` tool
card, in a connected state with chat and log history, flips only the popup
flag and publishes nothing. -/
theorem triggerTool_email_opens_popup_only_witness :
    triggerTool 3 true ⟨"send_email", "Send Email", "Compose and send an email",
        "Send an email to hr saying I will be late by 15 minutes"⟩
      { initState with connected := true, room := some (),
                       logs := [⟨1, "boot"⟩], inputMessage := "draft" }
    = ({ initState with connected := true, room := some (),
                        logs := [⟨1, "boot"⟩], inputMessage := "draft",
                        showEmailPopup := true }, []) :=
  triggerTool_email_opens_popup_only 3 true _ _ rfl rfl rfl

/-- **C2** (counterexample) — the remote-initiated `Disconnected` handler
does *not* leave the controller in the state an explicit
`disconnectFromRoom` produces: from a connected state with one remote
participant, the handler keeps the participant list while `disconnect()`
clears it. -/
theorem onRoomDisconnected_differs_from_disconnect :
    (onRoomDisconnected 5 sampleConnected).participants = [⟨"nevira-agent", true⟩] ∧
    (disconnectFromRoom sampleConnected).1.participants = [] := by
  constructor <;> rfl

/-- **C2** (amended) — the remote-initiated `Disconnected` handler forces
the Disconnected state, clears the Session (the room reference), and
cancels the meter loop, and it appends a log entry; but unlike an explicit
`disconnect()` it leaves the Participant set untouched. -/
theorem onRoomDisconnected_cleanup (now : Nat) (st : AppState) :
    (onRoomDisconnected now st).connected = false ∧
    (onRoomDisconnected now st).room = none ∧
    (onRoomDisconnected now st).levelRaf = false ∧
    (onRoomDisconnected now st).participants = st.participants ∧
    (onRoomDisconnected now st).logs
      = pushLog ⟨now, "Disconnected from room"⟩ st.logs := by
  exact ⟨rfl, rfl, rfl, rfl, rfl⟩

/-- **C3** (counterexample) — `connectToRoom` invoked while a session is
already Connected is *not* rejected: it performs the credential fetch and
the room connect anyway. -/
theorem connectToRoom_unguarded_when_connected :
    (connectToRoom "user_42" (.ok "tok") (.ok ()) sampleConnected).2
      = [.tokenFetch "user_42" "nevira-room", .roomConnect "tok", .enableMic] := by
  rfl

/-- **C3** (amended) — `connectToRoom` contains no connection-state guard:
its outward calls are identical from any state and from the pristine
disconnected state, and its first call is always the credential fetch.
The at-most-one-connected-session invariant is enforced only at the
invocation sites (the connect button is rendered only while disconnected
and disabled while connecting, and the auto-connect effect fires only when
neither connected nor connecting). -/
theorem connectToRoom_no_state_guard (identity : String)
    (tokenRes : Except String String) (connectRes : Except String Unit) (st : AppState) :
    (connectToRoom identity tokenRes connectRes st).2
      = (connectToRoom identity tokenRes connectRes initState).2 ∧
    (connectToRoom identity tokenRes connectRes st).2.head?
      = some (.tokenFetch identity "nevira-room") := by
  cases tokenRes with
  | error msg => exact ⟨rfl, rfl⟩
  | ok token =>
    cases connectRes with
    | error msg => exact ⟨rfl, rfl⟩
    | ok u => exact ⟨rfl, rfl⟩

/-- **C5** — decoding the JSON payload with `type` `assistant_message` and
`message` `hi` appends the assistant chat entry with text `hi` (the
`message` field, with `text` as fallback), and decoding the non-JSON bytes
`hello` appends the assistant chat entry with text `hello` through the
plain-text fallback path. -/
theorem decode_assistant_and_fallback_examples :
    (handleDataReceived 7 "\x7b\"type\":\"assistant_message\",\"message\":\"hi\"\x7d"
        initState).messages
      = [⟨7, .assistant, some (.str "hi"), .arr [], 7⟩] ∧
    (handleDataReceived 7 "hello" initState).messages
      = [⟨7, .assistant, some (.str "hello"), .arr [], 7⟩] := by
  constructor <;> rfl

/-- **C1** (counterexample) — a payload that is valid JSON but fails to
parse as the ControlMessage union (here a tagged object with the unknown
tag `ping`) is *not* appended as a plain-text assistant entry: the handler
drops it, leaving the state untouched. -/
theorem non_union_json_payload_dropped :
    handleDataReceived 4 "\x7b\"type\":\"ping\"\x7d" initState = initState := by
  rfl

/-- **C1** (amended) — the permissive plain-text fallback applies exactly
to payloads whose JSON parse throws: for those, when the decoded text is
nonempty and not all whitespace, the handler appends an assistant chat
entry carrying the decoded text verbatim and changes nothing else (in
particular no error is raised or surfaced — the error field is part of the
preserved state).  Valid-JSON payloads outside the union are dropped
rather than falling back. -/
theorem plain_text_fallback (now : Nat) (payload : String) (st : AppState)
    (hfail : jsonParse payload = none) (hnb : jsTrim payload ≠ "") :
    handleDataReceived now payload st
      = { st with messages := st.messages ++ [fallbackEntry now payload] } := by
  have hne : payload ≠ "" := fun he => hnb (by rw [he]; rfl)
  unfold handleDataReceived dataReceivedTry
  rw [hfail]
  simp [hne, hnb]

/-- Witness for `plain_text_fallback` at the non-JSON payload
`hello there`. -/
theorem plain_text_fallback_witness :
    handleDataReceived 2 "hello there" initState
      = { initState with messages := [fallbackEntry 2 "hello there"] } := by
  have h := plain_text_fallback 2 "hello there" initState (by rfl) (by decide)
  simpa using h

/-- Property access on a non-`null` parsed value never throws; it returns
the plain lookup. -/
theorem jsGetProp_of_ne_null (v : Js) (k : String) (h : v ≠ .null) :
    jsGetProp v k = .ok (jsProp v k) := by
  cases v
  · exact absurd rfl h
  all_goals rfl

/-- **C10** (counterexample) — the payload `null` is valid JSON whose
`type` is missing, yet it is not silently dropped: reading `.type` off the
parsed `null` throws, the exception lands in the plain-text fallback, and
the chat gains an assistant entry with text `null`. -/
theorem json_null_payload_falls_back :
    handleDataReceived 5 "null" initState
      = { initState with messages := [fallbackEntry 5 "null"] } := by
  rfl

/-- **C10** (amended) — the exact effect table of the `DataReceived`
handler: a payload parsing to non-`null` JSON whose `type` is neither
recognised tag is dropped with no state change; a payload whose parse
throws — and likewise the JSON payload `null`, whose `.type` access
throws — feeds the plain-text fallback, appending an assistant entry when
the decoded text is non-blank and otherwise changing nothing; the
`email_popup_trigger` tag opens the popup and pushes a log entry; the
`assistant_message` tag appends the assistant entry built from the
`message`/`text`/`images` fields. -/
theorem dataReceived_exact_cases (now : Nat) (payload : String) (st : AppState) :
    (∀ v, jsonParse payload = some v → v ≠ .null →
        jsProp v "type" ≠ some (.str "email_popup_trigger") →
        jsProp v "type" ≠ some (.str "assistant_message") →
        handleDataReceived now payload st = st) ∧
    ((jsonParse payload = none ∨ jsonParse payload = some .null) →
        jsTrim payload ≠ "" →
        handleDataReceived now payload st
          = { st with messages := st.messages ++ [fallbackEntry now payload] }) ∧
    ((jsonParse payload = none ∨ jsonParse payload = some .null) →
        jsTrim payload = "" →
        handleDataReceived now payload st = st) ∧
    (∀ v, jsonParse payload = some v →
        jsProp v "type" = some (.str "email_popup_trigger") →
        handleDataReceived now payload st
          = { st with
                showEmailPopup := true
                logs := pushLog ⟨now, "Email popup opened via voice command"⟩ st.logs }) ∧
    (∀ v, jsonParse payload = some v →
        jsProp v "type" = some (.str "assistant_message") →
        handleDataReceived now payload st
          = { st with messages := st.messages ++
                [assistantEntry now (jsProp v "message") (jsProp v "text")
                  (jsProp v "images")] }) := by
  have hblank : payload = "" → jsTrim payload = "" := fun he => by rw [he]; rfl
  refine ⟨?_, ?_, ?_, ?_, ?_⟩
  · intro v hv hnull hty1 hty2
    unfold handleDataReceived dataReceivedTry
    rw [hv]
    simp only [jsGetProp_of_ne_null v _ hnull]
  · intro hv hnb
    have hne : payload ≠ "" := fun he => hnb (hblank he)
    unfold handleDataReceived dataReceivedTry
    rcases hv with hv | hv <;> rw [hv] <;> simp [hne, hnb, jsGetProp]
  · intro hv hb
    unfold handleDataReceived dataReceivedTry
    rcases hv with hv | hv <;> rw [hv] <;> simp [hb, jsGetProp]
  · intro v hv hty
    have hnull : v ≠ .null := by
      intro he; rw [he] at hty; exact Option.noConfusion hty
    unfold handleDataReceived dataReceivedTry
    rw [hv]
    simp only [jsGetProp_of_ne_null v _ hnull, hty]
  · intro v hv hty
    have hnull : v ≠ .null := by
      intro he; rw [he] at hty; exact Option.noConfusion hty
    unfold handleDataReceived dataReceivedTry
    rw [hv]
    simp only [jsGetProp_of_ne_null v _ hnull, hty]

/-- Witness for `dataReceived_exact_cases`: an unknown-tag JSON object and
an all-whitespace payload are dropped, and the popup-trigger payload opens
the popup with its log entry. -/
theorem dataReceived_exact_cases_witness :
    handleDataReceived 1 "\x7b\"type\":\"nop\"\x7d" initState = initState ∧
    handleDataReceived 1 "   " initState = initState ∧
    handleDataReceived 1 "\x7b\"type\":\"email_popup_trigger\"\x7d" initState
      = { initState with
            showEmailPopup := true
            logs := pushLog ⟨1, "Email popup opened via voice command"⟩ [] } := by
  refine ⟨?_, ?_, ?_⟩
  · exact (dataReceived_exact_cases 1 _ initState).1 (.obj [("type", .str "nop")])
      (by rfl) (by intro h; exact Js.noConfusion h)
      (by intro h; simp [jsProp, lookupLast] at h)
      (by intro h; simp [jsProp, lookupLast] at h)
  · exact (dataReceived_exact_cases 1 "   " initState).2.2.1 (.inl (by rfl)) (by rfl)
  · exact (dataReceived_exact_cases 1 _ initState).2.2.2.1
      (.obj [("type", .str "email_popup_trigger")]) (by rfl)
      (by simp [jsProp, lookupLast])

/-- **C7** — when the room already holds at least the configured maximum of
participants, the `POST /token` route answers the 403 capacity error
(never a token), and a `connectToRoom` attempt whose token fetch got that
response surfaces the thrown fetch error and never reaches the
room-connect entry point. -/
theorem capacity_403_blocks_connect (id : String) (roomName : Option String)
    (maxP : Nat) (occupants : List String) (mint : String → String → String)
    (clientId : String) (connectRes : Except String Unit) (st : AppState)
    (hid : id ≠ "") (hcap : maxP ≤ occupants.length) :
    postToken ⟨some id, roomName⟩ maxP (some occupants) mint
      = .forbidden "Room is full. Please try again later." ∧
    (∀ token rn, postToken ⟨some id, roomName⟩ maxP (some occupants) mint ≠ .ok token rn) ∧
    (connectToRoom clientId
        (getToken (postToken ⟨some id, roomName⟩ maxP (some occupants) mint)) connectRes st).1.error
      = some "Token request failed: Forbidden" ∧
    (∀ token, Action.roomConnect token ∉
        (connectToRoom clientId
          (getToken (postToken ⟨some id, roomName⟩ maxP (some occupants) mint))
          connectRes st).2) := by
  have hpost : postToken ⟨some id, roomName⟩ maxP (some occupants) mint
      = .forbidden "Room is full. Please try again later." := by
    simp [postToken, hid, hcap]
  refine ⟨hpost, ?_, ?_, ?_⟩
  · intro token rn h
    rw [hpost] at h
    exact TokenResp.noConfusion h
  · rw [hpost]; rfl
  · intro token hmem
    rw [hpost] at hmem
    simp [getToken, connectToRoom] at hmem

/-- Witness for `capacity_403_blocks_connect`: a two-person cap with two
occupants rejects the third identity and the client never connects. -/
theorem capacity_403_blocks_connect_witness :
    postToken ⟨some "user_7", some "nevira-room"⟩ 2 (some ["agent", "user_1"])
        (fun _ _ => "jwt")
      = .forbidden "Room is full. Please try again later." ∧
    (connectToRoom "user_7"
        (getToken (postToken ⟨some "user_7", some "nevira-room"⟩ 2 (some ["agent", "user_1"])
          (fun _ _ => "jwt"))) (.ok ()) initState).1.error
      = some "Token request failed: Forbidden" ∧
    (∀ token, Action.roomConnect token ∉
        (connectToRoom "user_7"
          (getToken (postToken ⟨some "user_7", some "nevira-room"⟩ 2 (some ["agent", "user_1"])
            (fun _ _ => "jwt"))) (.ok ()) initState).2) := by
  have h := capacity_403_blocks_connect "user_7" (some "nevira-room") 2 ["agent", "user_1"]
    (fun _ _ => "jwt") "user_7" (.ok ()) initState (by decide) (by decide)
  exact ⟨h.1, h.2.2.1, h.2.2.2⟩

/-- **C8** — every meter tick publishes the clamped, rounded, 220-scaled
root-mean-square of the recentred sample window, so the level always lies
in `[0, 100]`; a window of silence (all bytes 128, i.e. zero amplitude)
yields 0, and any full-scale square-wave window (bytes 0 and 255) clamps
to 100. -/
theorem micTick_clamped_rms (samples : List ℕ) (h : samples ≠ []) :
    (0 ≤ micTick samples ∧ micTick samples ≤ 100) ∧
    ((∀ d ∈ samples, d = 128) → micTick samples = 0) ∧
    ((∀ d ∈ samples, d = 0 ∨ d = 255) → micTick samples = 100) := by
  have hn : 0 < (samples.length : ℝ) := by
    have : 0 < samples.length := List.length_pos.mpr h
    exact_mod_cast this
  refine ⟨⟨?_, ?_⟩, ?_, ?_⟩
  · exact le_min (by norm_num) (le_max_left 0 _)
  · exact min_le_left 100 _
  · intro hz
    have hsum : (samples.map
        (fun (d : ℕ) => (((d : ℝ) - 128) / 128) * (((d : ℝ) - 128) / 128))).sum = 0 := by
      apply List.sum_eq_zero
      intro x hx
      rcases List.mem_map.mp hx with ⟨d, hd, rfl⟩
      rw [hz d hd]
      norm_num
    simp only [micTick, hsum, zero_div, Real.sqrt_zero, zero_mul, round_zero]
    rfl
  · intro hsq
    set c : ℝ := (127 / 128) * (127 / 128) with hc
    have hterm : ∀ d ∈ samples,
        c ≤ (((d : ℝ) - 128) / 128) * (((d : ℝ) - 128) / 128) := by
      intro d hd
      rcases hsq d hd with rfl | rfl <;> rw [hc] <;> norm_num
    have hsum : (samples.length : ℝ) * c ≤ (samples.map
        (fun (d : ℕ) => (((d : ℝ) - 128) / 128) * (((d : ℝ) - 128) / 128))).sum := by
      have hmono := List.sum_le_sum (l := samples)
        (f := fun (_ : ℕ) => c)
        (g := fun (d : ℕ) => (((d : ℝ) - 128) / 128) * (((d : ℝ) - 128) / 128))
        hterm
      have hconst : (samples.map (fun (_ : ℕ) => c)).sum = (samples.length : ℝ) * c := by
        simp [List.map_const', List.sum_replicate, nsmul_eq_mul]
      rw [hconst] at hmono
      exact hmono
    have hquot : c ≤ (samples.map
        (fun (d : ℕ) => (((d : ℝ) - 128) / 128) * (((d : ℝ) - 128) / 128))).sum
          / (samples.length : ℝ) := by
      rw [le_div_iff₀ hn]
      linarith [hsum]
    have hsqrt : (127 / 128 : ℝ) ≤ Real.sqrt ((samples.map
        (fun (d : ℕ) => (((d : ℝ) - 128) / 128) * (((d : ℝ) - 128) / 128))).sum
          / (samples.length : ℝ)) := by
      have h1 : Real.sqrt c = 127 / 128 := by
        rw [hc]
        exact Real.sqrt_mul_self (by norm_num)
      calc (127 / 128 : ℝ) = Real.sqrt c := h1.symm
        _ ≤ _ := Real.sqrt_le_sqrt hquot
    have hround : (100 : ℤ) ≤ round (Real.sqrt ((samples.map
        (fun (d : ℕ) => (((d : ℝ) - 128) / 128) * (((d : ℝ) - 128) / 128))).sum
          / (samples.length : ℝ)) * 220) := by
      rw [round_eq]
      apply Int.le_floor.mpr
      push_cast
      nlinarith [hsqrt]
    simp only [micTick]
    rw [max_eq_right (le_trans (by norm_num : (0 : ℤ) ≤ 100) hround), min_eq_left hround]

/-- Witness for `micTick_clamped_rms`: a silence window meters 0 and a
two-sample full-scale square wave clamps to 100, both within bounds. -/
theorem micTick_clamped_rms_witness :
    (0 ≤ micTick [0, 255] ∧ micTick [0, 255] ≤ 100) ∧
    micTick [128] = 0 ∧ micTick [0, 255] = 100 := by
  have h1 := micTick_clamped_rms [0, 255] (by decide)
  have h2 := micTick_clamped_rms [128] (by decide)
  exact ⟨h1.1, h2.2.1 (by decide), h1.2.2 (by decide)⟩

/-! ### Round-trip of the user-command wire encoding (support lemmas) -/

theorem string_mk_data (s : String) : String.mk s.data = s := by
  cases s
  rfl

theorem skipWs_cons_not_ws (c : Char) (cs : List Char) (h : isJsonWs c = false) :
    skipWs (c :: cs) = c :: cs := by
  simp [skipWs, List.dropWhile_cons, h]

theorem isJsonWs_of_digit (c : Char) (h : isDigitCh c = true) : isJsonWs c = false := by
  simp only [isDigitCh, Bool.and_eq_true, decide_eq_true_eq] at h
  simp only [isJsonWs, Bool.or_eq_false_iff, beq_eq_false_iff_ne]
  refine ⟨⟨⟨?_, ?_⟩, ?_⟩, ?_⟩ <;> (intro he; subst he; exact absurd h (by decide))

theorem hexDigitVal_hexChar (k : Nat) (h : k < 16) : hexDigitVal (hexChar k) = some k := by
  interval_cases k <;> rfl

theorem strBody_stringifyChar (c : Char) (rest : List Char) :
    strBody (stringifyChar c ++ rest) = (strBody rest).map (fun p => (c :: p.1, p.2)) := by
  unfold stringifyChar
  by_cases h1 : c = '"'
  · subst h1; simp [strBody, namedEscape]
  · rw [if_neg h1]
    by_cases h2 : c = '\\'
    · subst h2; simp [strBody, namedEscape]
    · rw [if_neg h2]
      by_cases h3 : c = '\x08'
      · subst h3; simp [strBody, namedEscape]
      · rw [if_neg h3]
        by_cases h4 : c = '\t'
        · subst h4; simp [strBody, namedEscape]
        · rw [if_neg h4]
          by_cases h5 : c = '\n'
          · subst h5; simp [strBody, namedEscape]
          · rw [if_neg h5]
            by_cases h6 : c = '\x0c'
            · subst h6; simp [strBody, namedEscape]
            · rw [if_neg h6]
              by_cases h7 : c = '\r'
              · subst h7; simp [strBody, namedEscape]
              · rw [if_neg h7]
                by_cases h8 : c.toNat < 32
                · rw [if_pos h8]
                  have hdiv : c.toNat / 16 < 16 := by omega
                  have hmod : c.toNat % 16 < 16 := Nat.mod_lt _ (by omega)
                  have hval : ((0 * 16 + 0) * 16 + c.toNat / 16) * 16 + c.toNat % 16
                      = c.toNat := by omega
                  simp only [List.cons_append, List.nil_append, strBody,
                    show ('\\' : Char) = '"' ↔ False by simp, if_false,
                    reduceIte, hexDigitVal_hexChar _ hdiv, hexDigitVal_hexChar _ hmod,
                    show hexDigitVal '0' = some 0 from rfl, hval, Char.ofNat_toNat]
                  rfl
                · rw [if_neg h8]
                  simp only [List.cons_append, List.nil_append]
                  rw [strBody.eq_def]
                  simp [h1, h2, h8]

theorem natDecimal_digits (n : ℕ) : ∀ c ∈ natDecimal n, isDigitCh c = true := by
  induction n using Nat.strong_induction_on with
  | _ n ih =>
    rw [natDecimal.eq_def]
    split
    · rename_i h
      interval_cases n <;> decide
    · rename_i h
      intro c hc
      rcases List.mem_append.mp hc with hl | hr
      · exact ih (n / 10) (Nat.div_lt_self (by omega) (by omega)) c hl
      · have hk : n % 10 < 10 := Nat.mod_lt _ (by omega)
        rw [List.mem_singleton] at hr
        subst hr
        set k := n % 10 with hk2
        interval_cases k <;> decide

theorem natDecimal_ne_nil (n : ℕ) : natDecimal n ≠ [] := by
  rw [natDecimal.eq_def]
  split
  · exact List.cons_ne_nil _ _
  · simp

theorem natDecimal_cons (n : ℕ) :
    ∃ c t, natDecimal n = c :: t ∧ isDigitCh c = true := by
  cases h : natDecimal n with
  | nil => exact absurd h (natDecimal_ne_nil n)
  | cons c t =>
    exact ⟨c, t, rfl, natDecimal_digits n c (h ▸ List.mem_cons_self c t)⟩

theorem natDecimal_head_ne_zero (n : ℕ) (h1 : 1 ≤ n) :
    ∀ t, natDecimal n ≠ '0' :: t := by
  induction n using Nat.strong_induction_on with
  | _ n ih =>
    intro t
    rw [natDecimal.eq_def]
    split
    · rename_i h
      intro he
      rw [List.cons.injEq] at he
      have hval : Char.ofNat (48 + n) ≠ '0' := by
        interval_cases n <;> decide
      exact hval he.1
    · rename_i h
      intro he
      obtain ⟨c0, t0, h0, _⟩ := natDecimal_cons (n / 10)
      rw [h0, List.cons_append, List.cons.injEq] at he
      exact ih (n / 10) (Nat.div_lt_self (by omega) (by omega))
        (by omega) t0 (by rw [h0, he.1])

theorem natDecimal_lead_ok (n : ℕ) :
    ¬((natDecimal n).head? = some '0' ∧ (natDecimal n).length ≠ 1) := by
  by_cases h0 : n = 0
  · subst h0
    intro hcontra
    exact hcontra.2 (by rw [natDecimal.eq_def]; rfl)
  · intro hcontra
    obtain ⟨c0, t0, hd, _⟩ := natDecimal_cons n
    rw [hd] at hcontra
    have : c0 = '0' := by
      have := hcontra.1
      simp only [List.head?_cons, Option.some.injEq] at this
      exact this
    exact natDecimal_head_ne_zero n (by omega) t0 (by rw [← this, ← hd])

theorem digitSpan_stop (c : Char) (cs : List Char) (h : isDigitCh c = false) :
    digitSpan (c :: cs) = ([], c :: cs) := by
  rw [digitSpan.eq_def]
  simp [h]

theorem digitSpan_run (xs : List Char) (hxs : ∀ x ∈ xs, isDigitCh x = true)
    (c : Char) (hc : isDigitCh c = false) (tail : List Char) :
    digitSpan (xs ++ c :: tail) = (xs, c :: tail) := by
  induction xs with
  | nil => simpa using digitSpan_stop c tail hc
  | cons a as ih =>
    have ha : isDigitCh a = true := hxs a (List.mem_cons_self a as)
    rw [List.cons_append, digitSpan.eq_def]
    simp only [ha, ih (fun x hx => hxs x (List.mem_cons_of_mem a hx))]

theorem stripMinus_ne (c : Char) (cs : List Char) (h : c ≠ '-') :
    stripMinus (c :: cs) = (false, c :: cs) := by
  rw [stripMinus.eq_def]
  split
  · rename_i heq
    rw [List.cons.injEq] at heq
    exact absurd heq.1 h
  · rfl

theorem fracPart_ne (c : Char) (cs : List Char) (h : c ≠ '.') :
    fracPart (c :: cs) = ([], c :: cs) := by
  rw [fracPart.eq_def]
  split
  · rename_i heq
    rw [List.cons.injEq] at heq
    exact absurd heq.1 h
  · rfl

theorem expMark_ne (c : Char) (cs : List Char) (h1 : c ≠ 'e') (h2 : c ≠ 'E') :
    expMark (c :: cs) = (false, c :: cs) := by
  rw [expMark.eq_def]
  split
  all_goals try rfl
  all_goals rename_i heq
  all_goals rw [List.cons.injEq] at heq
  all_goals first
    | exact absurd heq.1 h1
    | exact absurd heq.1 h2

theorem numToken_natDecimal (n : ℕ) (c : Char) (tail : List Char)
    (hc : isDigitCh c = false) (hdot : c ≠ '.') (hse : c ≠ 'e') (hsE : c ≠ 'E') :
    numToken (natDecimal n ++ c :: tail)
      = some ((digitsVal (natDecimal n) : ℚ), c :: tail) := by
  obtain ⟨c0, t0, h0, hd0⟩ := natDecimal_cons n
  have hm : c0 ≠ '-' := by
    intro he; rw [he] at hd0; exact absurd hd0 (by decide)
  have hstrip : stripMinus (natDecimal n ++ c :: tail)
      = (false, natDecimal n ++ c :: tail) := by
    rw [h0, List.cons_append, stripMinus_ne c0 _ hm, ← List.cons_append, ← h0]
  have hspan := digitSpan_run (natDecimal n) (natDecimal_digits n) c hc tail
  have hfrac : fracPart (c :: tail) = ([], c :: tail) := fracPart_ne c tail hdot
  have hexp : expMark (c :: tail) = (false, c :: tail) := expMark_ne c tail hse hsE
  unfold numToken
  rw [hstrip]
  simp only [hspan, hfrac, hexp, if_neg (natDecimal_ne_nil n),
    if_neg (natDecimal_lead_ok n), ne_eq, not_true_eq_false, false_and, if_false,
    not_false_eq_true, List.length_nil, pow_zero, Bool.false_eq_true]
  norm_num [digitsVal]

theorem jsonVal_number (f : Nat) (n : ℕ) (c : Char) (tail : List Char)
    (hc : isDigitCh c = false) (hdot : c ≠ '.') (hse : c ≠ 'e') (hsE : c ≠ 'E') :
    jsonVal (f + 1) (natDecimal n ++ c :: tail)
      = some (.num (digitsVal (natDecimal n)), c :: tail) := by
  obtain ⟨c0, t0, h0, hd0⟩ := natDecimal_cons n
  have hn : c0 ≠ 'n' := by intro he; rw [he] at hd0; exact absurd hd0 (by decide)
  have ht : c0 ≠ 't' := by intro he; rw [he] at hd0; exact absurd hd0 (by decide)
  have hf : c0 ≠ 'f' := by intro he; rw [he] at hd0; exact absurd hd0 (by decide)
  have hq : c0 ≠ '"' := by intro he; rw [he] at hd0; exact absurd hd0 (by decide)
  have hbk : c0 ≠ '[' := by intro he; rw [he] at hd0; exact absurd hd0 (by decide)
  have hbr : c0 ≠ '\x7b' := by intro he; rw [he] at hd0; exact absurd hd0 (by decide)
  rw [h0, List.cons_append, jsonVal.eq_def]
  split
  · rename_i heq
    exact absurd heq (Nat.succ_ne_zero _)
  · rw [← List.cons_append, ← h0, numToken_natDecimal n c tail hc hdot hse hsE,
      h0, List.cons_append]
    split
    all_goals first
      | rfl
      | (rename_i heq
         rw [List.cons.injEq] at heq
         first
           | exact absurd heq.1 hn
           | exact absurd heq.1 ht
           | exact absurd heq.1 hf
           | exact absurd heq.1 hq
           | exact absurd heq.1 hbk
           | exact absurd heq.1 hbr)

theorem strBody_stringifyBody (cs : List Char) (rest : List Char) :
    strBody (cs.flatMap stringifyChar ++ '"' :: rest) = some (cs, rest) := by
  induction cs with
  | nil =>
    rw [List.flatMap_nil, List.nil_append, strBody.eq_def]
    rfl
  | cons c t ih =>
    rw [List.flatMap_cons, List.append_assoc, strBody_stringifyChar, ih]
    rfl

theorem jsonVal_str (f : Nat) (s : String) (rest : List Char) :
    jsonVal (f + 1) ('"' :: (stringifyBody s ++ '"' :: rest)) = some (.str s, rest) := by
  rw [jsonVal.eq_def]
  simp only [stringifyBody, strBody_stringifyBody, string_mk_data]

theorem jsonFields_last (f : Nat) (key : String) (vc : List Char) (v : Js)
    (rem : List Char) (hws : skipWs vc = vc)
    (hv : jsonVal f vc = some (v, '\x7d' :: rem)) :
    jsonFields (f + 1) ('"' :: (key.data.flatMap stringifyChar ++ '"' :: ':' :: vc))
      = some ([(key, v)], rem) := by
  rw [jsonFields.eq_def]
  simp only [strBody_stringifyBody, skipWs_cons_not_ws ':' vc (by rfl), hws, hv,
    skipWs_cons_not_ws '\x7d' rem (by rfl), string_mk_data]

theorem jsonFields_cons (f : Nat) (key : String) (vc : List Char) (v : Js)
    (rem : List Char) (fields : List (String × Js)) (rem2 : List Char)
    (hws : skipWs vc = vc) (hws2 : skipWs rem = rem)
    (hv : jsonVal f vc = some (v, ',' :: rem))
    (hrest : jsonFields f rem = some (fields, rem2)) :
    jsonFields (f + 1) ('"' :: (key.data.flatMap stringifyChar ++ '"' :: ':' :: vc))
      = some ((key, v) :: fields, rem2) := by
  rw [jsonFields.eq_def]
  simp only [strBody_stringifyBody, skipWs_cons_not_ws ':' vc (by rfl), hws, hv,
    skipWs_cons_not_ws ',' rem (by rfl), hws2, hrest, string_mk_data]

/-- Parsing the serialized user-command object recovers the three fields in
order.  Any fuel of the shape `m + 5` suffices. -/
theorem jsonVal_encodeUserCommand (m : Nat) (t : String) (ts : ℕ) :
    jsonVal (m + 5) ((encodeUserCommand t ts).data)
      = some (.obj [("type", .str "user_command"), ("text", .str t),
                    ("ts", .num (digitsVal (natDecimal ts)))], []) := by
  have hdata : (encodeUserCommand t ts).data
      = '\x7b' :: ('"' :: ("type".data.flatMap stringifyChar ++ '"' :: ':' ::
          ('"' :: (stringifyBody "user_command" ++ '"' :: ',' ::
          ('"' :: ("text".data.flatMap stringifyChar ++ '"' :: ':' ::
          ('"' :: (stringifyBody t ++ '"' :: ',' ::
          ('"' :: ("ts".data.flatMap stringifyChar ++ '"' :: ':' ::
          (natDecimal ts ++ '\x7d' :: []))))))))))) := by
    simp only [encodeUserCommand]
    rw [List.append_assoc, List.append_assoc, List.append_assoc]
    rfl
  have hnum := jsonVal_number m ts '\x7d' [] (by decide) (by decide) (by decide) (by decide)
  have hws3 : skipWs (natDecimal ts ++ '\x7d' :: []) = natDecimal ts ++ '\x7d' :: [] := by
    obtain ⟨c0, t0, h0, hd0⟩ := natDecimal_cons ts
    rw [h0, List.cons_append]
    exact skipWs_cons_not_ws c0 _ (isJsonWs_of_digit c0 hd0)
  have hf1 : jsonFields (m + 2) ('"' :: ("ts".data.flatMap stringifyChar ++ '"' :: ':' ::
      (natDecimal ts ++ '\x7d' :: [])))
      = some ([("ts", .num (digitsVal (natDecimal ts)))], []) :=
    jsonFields_last (m + 1) "ts" _ _ [] hws3 hnum
  have hf2 : jsonFields (m + 3) ('"' :: ("text".data.flatMap stringifyChar ++ '"' :: ':' ::
      ('"' :: (stringifyBody t ++ '"' :: ',' ::
        ('"' :: ("ts".data.flatMap stringifyChar ++ '"' :: ':' ::
          (natDecimal ts ++ '\x7d' :: [])))))))
      = some ([("text", .str t), ("ts", .num (digitsVal (natDecimal ts)))], []) :=
    jsonFields_cons (m + 2) "text" _ (.str t) _ _ []
      (skipWs_cons_not_ws '"' _ (by rfl)) (skipWs_cons_not_ws '"' _ (by rfl))
      (jsonVal_str (m + 1) t _) hf1
  have hf3 : jsonFields (m + 4) ('"' :: ("type".data.flatMap stringifyChar ++ '"' :: ':' ::
      ('"' :: (stringifyBody "user_command" ++ '"' :: ',' ::
        ('"' :: ("text".data.flatMap stringifyChar ++ '"' :: ':' ::
          ('"' :: (stringifyBody t ++ '"' :: ',' ::
            ('"' :: ("ts".data.flatMap stringifyChar ++ '"' :: ':' ::
              (natDecimal ts ++ '\x7d' :: [])))))))))))
      = some ([("type", .str "user_command"), ("text", .str t),
               ("ts", .num (digitsVal (natDecimal ts)))], []) :=
    jsonFields_cons (m + 3) "type" _ (.str "user_command") _ _ []
      (skipWs_cons_not_ws '"' _ (by rfl)) (skipWs_cons_not_ws '"' _ (by rfl))
      (jsonVal_str (m + 2) "user_command" _) hf2
  rw [hdata, jsonVal.eq_def]
  simp only [show ("type".data : List Char) = ['t', 'y', 'p', 'e'] from rfl,
    show ("text".data : List Char) = ['t', 'e', 'x', 't'] from rfl,
    show ("ts".data : List Char) = ['t', 's'] from rfl] at hf3
  simp only [skipWs_cons_not_ws '"' _ (by rfl)]
  split
  · rename_i heq
    rw [List.cons.injEq] at heq
    exact absurd heq.1 (by decide)
  · rw [hf3]

/-- **C6** — encoding a `UserCommand` with text `t` produces wire bytes
whose JSON decoding is an object with `type` `user_command` and `text` `t`
(decode of encode recovers the discriminator and the text), and both
`triggerTool` (for non-email tools) and `sendMessage` publish exactly that
encoding with the reliable flag set. -/
theorem userCommand_wire_roundtrip (t : String) (ts now : Nat) (st : AppState)
    (tool : Tool) (pubOk : Bool)
    (hc : st.connected = true) (hr : st.room = some ()) (hk : tool.key ≠ "send_email")
    (hinput : jsTrim st.inputMessage ≠ "") :
    (∃ v, jsonParse (encodeUserCommand t ts) = some v ∧
        jsProp v "type" = some (.str "user_command") ∧
        jsProp v "text" = some (.str t)) ∧
    (triggerTool now pubOk tool st).2
      = [.publishData (encodeUserCommand tool.prompt now) true] ∧
    (sendMessage now pubOk st).2
      = [.publishData (encodeUserCommand st.inputMessage now) true] := by
  refine ⟨⟨.obj [("type", .str "user_command"), ("text", .str t),
      ("ts", .num (digitsVal (natDecimal ts)))], ?_, ?_, ?_⟩, ?_, ?_⟩
  · unfold jsonParse
    rw [show skipWs (encodeUserCommand t ts).data = (encodeUserCommand t ts).data from
        skipWs_cons_not_ws '\x7b' _ (by rfl),
      jsonVal_encodeUserCommand ((encodeUserCommand t ts).data.length) t ts]
    rfl
  · simp [jsProp, lookupLast]
  · simp [jsProp, lookupLast]
  · cases pubOk <;> simp [triggerTool, hc, hr, hk]
  · cases pubOk <;> simp [sendMessage, hc, hr, hinput]

/-- Witness for `userCommand_wire_roundtrip` at the `Open App` tool's
canned prompt, in a connected state whose chat box holds the same text. -/
theorem userCommand_wire_roundtrip_witness :
    (∃ v, jsonParse (encodeUserCommand "Open calculator" 3) = some v ∧
        jsProp v "type" = some (.str "user_command") ∧
        jsProp v "text" = some (.str "Open calculator")) ∧
    (triggerTool 3 true
        ⟨"open_application", "Open App", "Open common applications", "Open calculator"⟩
        { sampleConnected with inputMessage := "Open calculator" }).2
      = [.publishData (encodeUserCommand "Open calculator" 3) true] ∧
    (sendMessage 3 true { sampleConnected with inputMessage := "Open calculator" }).2
      = [.publishData (encodeUserCommand "Open calculator" 3) true] :=
  userCommand_wire_roundtrip "Open calculator" 3 3
    { sampleConnected with inputMessage := "Open calculator" }
    ⟨"open_application", "Open App", "Open common applications", "Open calculator"⟩
    true rfl rfl (by decide) (by decide)

end Nevira
